import Mathlib

/-!
Shallow embedding of `circpacker.core.basegeom` (classes `Circle` and
`Triangle`, methods `descartesTheorem` and `circInTriangle`).

Real-number arithmetic of the Python source is modelled over `ℚ`.  The
Python power `x ** 0.5` is modelled by an explicit square-root parameter
`sq : ℚ → ℚ`; theorems that need exactness of the square root take it as
a hypothesis at the concrete arguments where the source evaluates it.
The `while True` loop of the length-bounded mode is modelled with fuel:
`none` means the loop did not finish within the given fuel.
-/

namespace Circpacker

/-- A point of the plane, `numpy` 2-vectors in the source. -/
structure Pt where
  x : ℚ
  y : ℚ
deriving DecidableEq, Repr

/-- Embeds `Circle.__init__`: the source stores `center` and `radius` and derives
`curvature`, `diameter`, `area`, `perimeter` from them.  We keep the two
primitive fields; the derived quantities used by the algorithms are the
functions below. -/
structure Circle where
  center : Pt
  radius : ℚ
deriving DecidableEq, Repr

/-- Derived attribute `self.curvature = 1 / self.radius`. -/
def Circle.curvature (c : Circle) : ℚ := 1 / c.radius

/-- Derived attribute `self.diameter = 2 * self.radius`. -/
def Circle.diameter (c : Circle) : ℚ := 2 * c.radius

/-- Squared Euclidean distance between two points (used to state tangency
without a square root). -/
def sqDist (p q : Pt) : ℚ := (p.x - q.x) ^ 2 + (p.y - q.y) ^ 2

/-- Embeds `_euclidean_distance(point_a, point_b)`: `np.linalg.norm(a - b)`,
i.e. the square root of `sqDist`, with the square root supplied by `sq`. -/
def euclid (sq : ℚ → ℚ) (p q : Pt) : ℚ := sq (sqDist p q)

/-- The new radius computed by `Circle.descartesTheorem`.
`none` is the special case (two tangent circles), `some c2` the general
case; note the source's general case adds `circle2.radius` into the
curvature sum. -/
def descartesRadius (sq : ℚ → ℚ) (self c1 : Circle) (c2 : Option Circle) : ℚ :=
  match c2 with
  | none =>
      (self.curvature + c1.curvature
        + 2 * sq (self.curvature * c1.curvature))⁻¹
  | some c2 =>
      (self.curvature + c1.curvature + c2.radius + c2.curvature
        + 2 * sq (self.curvature * c1.curvature
            + c1.curvature * c2.curvature
            + c2.curvature * self.curvature))⁻¹

/-- Embeds `chordDist = (R1**2 - R2**2 + dist**2) / (2 * dist)` where
`R1 = self.radius + radius`, `R2 = circle1.radius + radius` and
`dist = self.radius + circle1.radius`. -/
def descartesChordDist (sq : ℚ → ℚ) (self c1 : Circle) (c2 : Option Circle) : ℚ :=
  let radius := descartesRadius sq self c1 c2
  let R1 := self.radius + radius
  let R2 := c1.radius + radius
  let dist := self.radius + c1.radius
  (R1 ^ 2 - R2 ^ 2 + dist ^ 2) / (2 * dist)

/-- The argument of the square root in `halfChord = (R1**2 - chordDist**2) ** 0.5`. -/
def descartesHalfChordSq (sq : ℚ → ℚ) (self c1 : Circle) (c2 : Option Circle) : ℚ :=
  (self.radius + descartesRadius sq self c1 c2) ^ 2
    - (descartesChordDist sq self c1 c2) ^ 2

/-- Embeds `Circle.descartesTheorem(circle1, circle2=None)`: the curvature
relation gives the new radius, then Bourke's two-circle-intersection
construction gives the two candidate centers. -/
def descartesTheorem (sq : ℚ → ℚ) (self c1 : Circle) (c2 : Option Circle) :
    Circle × Circle :=
  let radius := descartesRadius sq self c1 c2
  let dist := self.radius + c1.radius
  let cosv := (c1.center.x - self.center.x) / dist
  let sinv := (c1.center.y - self.center.y) / dist
  let chordDist := descartesChordDist sq self c1 c2
  let halfChord := sq (descartesHalfChordSq sq self c1 c2)
  (⟨⟨self.center.x + chordDist * cosv - halfChord * sinv,
     self.center.y + chordDist * sinv + halfChord * cosv⟩, radius⟩,
   ⟨⟨self.center.x + chordDist * cosv + halfChord * sinv,
     self.center.y + chordDist * sinv - halfChord * cosv⟩, radius⟩)

/-- Embeds `Triangle`: vertices `A`, `B`, `C` plus the attributes set by
`getGeomProperties` (`area`, `sides`, `perimeter`, `distToIncenter`,
`incircle`).  `circInTriangle` only reads `vertices`, `distToIncenter`
and `incircle`. -/
structure Tri where
  A : Pt
  B : Pt
  C : Pt
  area : ℚ
  sideA : ℚ
  sideB : ℚ
  sideC : ℚ
  perimeter : ℚ
  distA : ℚ
  distB : ℚ
  distC : ℚ
  incircle : Circle
deriving DecidableEq, Repr

/-- Embeds `Triangle.__init__` / `getGeomProperties`: area by the Gauss
(shoelace) formula, sides opposite the vertices, incircle radius
`2 * area / perimeter`, incircle center the side-length-weighted vertex
average, and the distances of the incenter to each vertex. -/
def mkTriangle (sq : ℚ → ℚ) (pA pB pC : Pt) : Tri :=
  let area := (1 / 2 : ℚ) *
    |pA.x * pB.y - pA.y * pB.x + pB.x * pC.y - pB.y * pC.x
      + pC.x * pA.y - pC.y * pA.x|
  let a := euclid sq pB pC
  let b := euclid sq pA pC
  let c := euclid sq pA pB
  let perimeter := a + b + c
  let radius := 2 * area / perimeter
  let center : Pt := ⟨(a * pA.x + b * pB.x + c * pC.x) / perimeter,
                      (a * pA.y + b * pB.y + c * pC.y) / perimeter⟩
  { A := pA, B := pB, C := pC
    area := area, sideA := a, sideB := b, sideC := c
    perimeter := perimeter
    distA := euclid sq center pA
    distB := euclid sq center pB
    distC := euclid sq center pC
    incircle := ⟨center, radius⟩ }

/-- The nine circles appended per iteration of the depth-bounded branch of
`circInTriangle`: `(circle, c31, c32, c41, c42, c52, c61, c71, c82)`. -/
def depthBlock (sq : ℚ → ℚ) (auxCirc circle : Circle) : List Circle :=
  let p3 := descartesTheorem sq auxCirc circle none
  let p4 := descartesTheorem sq auxCirc circle (some p3.1)
  let p5 := descartesTheorem sq circle p3.1 none
  let p6 := descartesTheorem sq circle p3.2 none
  let p7 := descartesTheorem sq auxCirc p3.1 none
  let p8 := descartesTheorem sq auxCirc p3.2 none
  [circle, p3.1, p3.2, p4.1, p4.2, p5.2, p6.1, p7.1, p8.2]

/-- The depth-bounded per-vertex loop `for i in range(1, depth + 1)`,
with the circles it appends to `lstCirc` as result. -/
def depthLoop (sq : ℚ → ℚ) (vert : Pt) : Circle → ℚ → ℕ → List Circle
  | _, _, 0 => []
  | auxCirc, auxDist, n + 1 =>
    let radius := (auxCirc.radius * auxDist - auxCirc.radius ^ 2)
        / (auxCirc.radius + auxDist)
    let dist := auxCirc.radius + radius
    let center : Pt :=
      ⟨auxCirc.center.x + (dist / auxDist) * (vert.x - auxCirc.center.x),
       auxCirc.center.y + (dist / auxDist) * (vert.y - auxCirc.center.y)⟩
    let circle : Circle := ⟨center, radius⟩
    depthBlock sq auxCirc circle
      ++ depthLoop sq vert circle (euclid sq vert center) n

/-- The length-bounded per-vertex loop `while True`, fuelled.  `none`
means the stop condition `2 * radius <= lenght` was not reached within
the fuel; `some l` collects the circles appended to `lstCirc`. -/
def lengthLoop (sq : ℚ → ℚ) (lenght : ℚ) (vert : Pt) :
    Circle → ℚ → ℕ → Option (List Circle)
  | _, _, 0 => none
  | auxCirc, auxDist, fuel + 1 =>
    let radius := (auxCirc.radius * auxDist - auxCirc.radius ^ 2)
        / (auxCirc.radius + auxDist)
    if 2 * radius ≤ lenght then some []
    else
      let dist := auxCirc.radius + radius
      let center : Pt :=
        ⟨auxCirc.center.x + (dist / auxDist) * (vert.x - auxCirc.center.x),
         auxCirc.center.y + (dist / auxDist) * (vert.y - auxCirc.center.y)⟩
      let circle : Circle := ⟨center, radius⟩
      let p3 := descartesTheorem sq auxCirc circle none
      (lengthLoop sq lenght vert circle (euclid sq vert center) fuel).map
        (fun rest => circle :: p3.1 :: p3.2 :: rest)

/-- The body of the `for vert, distance in zip(...)` loop of
`circInTriangle` for one vertex: branch selection between the two modes.
With `depth` and `lenght` both set, or both unset, neither branch runs
and nothing is appended; a negative `depth` also appends nothing. -/
def vertexPack (sq : ℚ → ℚ) (depth : Option ℤ) (lenght : Option ℚ)
    (fuel : ℕ) (incircle : Circle) (vert : Pt) (d0 : ℚ) :
    Option (List Circle) :=
  match depth, lenght with
  | none, some l => lengthLoop sq l vert incircle d0 fuel
  | some dep, none =>
      if 0 ≤ dep then some (depthLoop sq vert incircle d0 dep.toNat)
      else some []
  | none, none => some []
  | some _, some _ => some []

/-- Builds `lstCirc` as `circInTriangle` does after the alias resolution:
the incircle followed by the circles of the three vertex branches, in
the vertex order `A`, `B`, `C`. -/
def circInTriangleList (sq : ℚ → ℚ) (t : Tri) (depth : Option ℤ)
    (lenght : Option ℚ) (fuel : ℕ) : Option (List Circle) :=
  match vertexPack sq depth lenght fuel t.incircle t.A t.distA,
        vertexPack sq depth lenght fuel t.incircle t.B t.distB,
        vertexPack sq depth lenght fuel t.incircle t.C t.distC with
  | some la, some lb, some lc => some (t.incircle :: (la ++ lb ++ lc))
  | _, _, _ => none

/-- The `length`/`lenght` alias resolution at the top of
`circInTriangle`: a `ValueError` for conflicting values, otherwise
`lenght = length` when `length` is given. -/
def resolveLength (lenght length : Option ℚ) : Except String (Option ℚ) :=
  match length with
  | none => .ok lenght
  | some l =>
    match lenght with
    | some l0 =>
        if l ≠ l0 then
          .error "Conflicting values for length and legacy lenght."
        else .ok (some l)
    | none => .ok (some l)

/-- Embeds `Triangle.circInTriangle(depth, lenght, length=length)` without the
plotting/caching side effects: `Except.error` models the raised
`ValueError`, `Except.ok none` a run of the length-bounded loop that
never meets its stop condition (within the fuel). -/
def circInTriangle (sq : ℚ → ℚ) (t : Tri) (depth : Option ℤ)
    (lenght length : Option ℚ) (fuel : ℕ) :
    Except String (Option (List Circle)) :=
  match resolveLength lenght length with
  | .error e => .error e
  | .ok l => .ok (circInTriangleList sq t depth l fuel)

/-- A `Triangle` instance as mutable state: the geometric attributes set
at construction plus the `lstCirc` attribute set by `circInTriangle`. -/
structure TriM where
  tri : Tri
  lstCirc : Option (List Circle)
deriving DecidableEq, Repr

/-- The full method `circInTriangle(depth, lenght, want2plot, length=length)`
on an instance: resolves the alias, computes the list, stores it in
`self.lstCirc`, and returns the list only when `want2plot` is false
(with `want2plot=True` the method plots and returns `None`).  The outer
value pairs the Python return value with the post-call instance state. -/
def circInTriangleMethod (sq : ℚ → ℚ) (s : TriM) (depth : Option ℤ)
    (lenght length : Option ℚ) (fuel : ℕ) (want2plot : Bool) :
    Except String (Option ((Option (List Circle)) × TriM)) :=
  match resolveLength lenght length with
  | .error e => .error e
  | .ok l =>
    match circInTriangleList sq s.tri depth l fuel with
    | none => .ok none
    | some lst =>
        .ok (some (if want2plot then none else some lst, ⟨s.tri, some lst⟩))

/-- A stand-in for the floating-point square root used to evaluate the
embedding on concrete inputs: a finite table of exact square roots,
zero off the table. -/
def testSqrt (q : ℚ) : ℚ :=
  if q = 1 then 1
  else if q = 9 then 3
  else if q = 16 then 4
  else if q = 25 then 5
  else if q = 9/16 then 3/4
  else 0

/-- Modelled from the spec: the standard
three-circle Descartes curvature relation
`k4 = k1 + k2 + k3 + 2 * sqrt(k1*k2 + k2*k3 + k3*k1)` that the spec says
implementers should use, for comparison with `descartesRadius`. -/
def specDescartesCurvature (sq : ℚ → ℚ) (c0 c1 c2 : Circle) : ℚ :=
  c0.curvature + c1.curvature + c2.curvature
    + 2 * sq (c0.curvature * c1.curvature
        + c1.curvature * c2.curvature
        + c2.curvature * c0.curvature)

/-- A concrete right triangle `[(0,0), (3,0), (0,4)]` whose side lengths
5, 4, 3 are integral, so `testSqrt` is exact on them: area 6, incircle of
radius 1 centered at `(1,1)`. -/
def testTri : Tri := mkTriangle testSqrt ⟨0, 0⟩ ⟨3, 0⟩ ⟨0, 4⟩

lemma depthBlock_length (sq : ℚ → ℚ) (a c : Circle) :
    (depthBlock sq a c).length = 9 := rfl

lemma depthLoop_length (sq : ℚ → ℚ) (vert : Pt) :
    ∀ (n : ℕ) (aux : Circle) (D : ℚ),
      (depthLoop sq vert aux D n).length = 9 * n := by
  intro n
  induction n with
  | zero => intro aux D; rfl
  | succ n ih =>
    intro aux D
    rw [depthLoop, List.length_append, depthBlock_length, ih]
    ring

lemma lengthLoop_length (sq : ℚ → ℚ) (le : ℚ) (vert : Pt) :
    ∀ (fuel : ℕ) (aux : Circle) (D : ℚ) (lst : List Circle),
      lengthLoop sq le vert aux D fuel = some lst →
      ∃ k, lst.length = 3 * k := by
  intro fuel
  induction fuel with
  | zero => intro aux D lst h; exact absurd h (by simp [lengthLoop])
  | succ fuel ih =>
    intro aux D lst h
    rw [lengthLoop] at h
    by_cases hstop : 2 * ((aux.radius * D - aux.radius ^ 2)
        / (aux.radius + D)) ≤ le
    · rw [if_pos hstop] at h
      obtain rfl : ([] : List Circle) = lst := Option.some.inj h
      exact ⟨0, rfl⟩
    · rw [if_neg hstop] at h
      rcases Option.map_eq_some'.mp h with ⟨rest, hrest, rfl⟩
      obtain ⟨k, hk⟩ := ih _ _ rest hrest
      exact ⟨k + 1, by simp [hk]; ring⟩

end Circpacker

namespace Circpacker

/-- Claim C1 (code bug): the general case of `Circle.descartesTheorem`
does not compute the reciprocal of the standard Descartes relation
`c0 + c1 + c2 + 2*sqrt(c0*c1 + c1*c2 + c2*c0)`: it adds the raw radius
of the second circle into the curvature sum.  Symbolically the computed
radius is the reciprocal of the standard curvature plus `circle2.radius`,
and at curvatures `(1, 1, 4)` the code yields `4/49` where the standard
relation yields `1/12`. -/
theorem descartes_general_extra_radius_term :
    (∀ (sq : ℚ → ℚ) (c0 c1 c2 : Circle),
      descartesRadius sq c0 c1 (some c2)
        = (specDescartesCurvature sq c0 c1 c2 + c2.radius)⁻¹)
    ∧ descartesRadius testSqrt ⟨⟨0, 0⟩, 1⟩ ⟨⟨2, 0⟩, 1⟩ (some ⟨⟨0, 0⟩, 1/4⟩)
        = 4/49
    ∧ (specDescartesCurvature testSqrt ⟨⟨0, 0⟩, 1⟩ ⟨⟨2, 0⟩, 1⟩ ⟨⟨0, 0⟩, 1/4⟩)⁻¹
        = 1/12
    ∧ descartesRadius testSqrt ⟨⟨0, 0⟩, 1⟩ ⟨⟨2, 0⟩, 1⟩ (some ⟨⟨0, 0⟩, 1/4⟩)
        ≠ (specDescartesCurvature testSqrt ⟨⟨0, 0⟩, 1⟩ ⟨⟨2, 0⟩, 1⟩ ⟨⟨0, 0⟩, 1/4⟩)⁻¹ := by
  refine ⟨fun sq c0 c1 c2 => ?_, ?_, ?_, ?_⟩
  · show (c0.curvature + c1.curvature + c2.radius + c2.curvature
        + 2 * sq (c0.curvature * c1.curvature + c1.curvature * c2.curvature
            + c2.curvature * c0.curvature))⁻¹
      = (specDescartesCurvature sq c0 c1 c2 + c2.radius)⁻¹
    rw [specDescartesCurvature]
    ring_nf
  · norm_num [descartesRadius, Circle.curvature, testSqrt]
  · norm_num [specDescartesCurvature, Circle.curvature, testSqrt]
  · norm_num [descartesRadius, specDescartesCurvature, Circle.curvature,
      testSqrt]

/-- Claim C4: `circInTriangle(depth=0)` (no length argument) returns
exactly the one-element list containing the incircle, for every triangle. -/
theorem circ_depth_zero_incircle (sq : ℚ → ℚ) (t : Tri) (fuel : ℕ) :
    circInTriangle sq t (some 0) none none fuel
      = .ok (some [t.incircle]) := rfl

/-- Claim C5: in depth-bounded mode each fractal level appends nine
circles per vertex, so `circInTriangle(depth=d)` returns exactly
`1 + 27*d` circles, in the order: incircle first, then the branch of
vertex `A`, then of `B`, then of `C`, each branch being its fractal
levels in order. -/
theorem circ_depth_mode_order_count (sq : ℚ → ℚ) (t : Tri) (d : ℕ) (fuel : ℕ) :
    circInTriangle sq t (some (d : ℤ)) none none fuel
      = .ok (some (t.incircle ::
          (depthLoop sq t.A t.incircle t.distA d
            ++ depthLoop sq t.B t.incircle t.distB d
            ++ depthLoop sq t.C t.incircle t.distC d)))
    ∧ (t.incircle ::
          (depthLoop sq t.A t.incircle t.distA d
            ++ depthLoop sq t.B t.incircle t.distB d
            ++ depthLoop sq t.C t.incircle t.distC d)).length
        = 1 + 27 * d := by
  have hv : ∀ v dv, vertexPack sq (some (d : ℤ)) none fuel t.incircle v dv
      = some (depthLoop sq v t.incircle dv d) := by
    intro v dv
    simp only [vertexPack]
    rw [if_pos (Int.natCast_nonneg d), Int.toNat_natCast]
  have h1 : circInTriangle sq t (some (d : ℤ)) none none fuel
      = .ok (some (t.incircle ::
          (depthLoop sq t.A t.incircle t.distA d
            ++ depthLoop sq t.B t.incircle t.distB d
            ++ depthLoop sq t.C t.incircle t.distC d))) := by
    simp only [circInTriangle, resolveLength, circInTriangleList, hv]
  refine ⟨h1, ?_⟩
  simp only [List.length_cons, List.length_append, depthLoop_length]
  ring

/-- Claim C6 counterexample: a negative `depth`, `depth` and `length`
both supplied, and neither supplied, all return `[incircle]` without
raising any configuration error, contradicting the claim that these
configurations raise. -/
theorem circ_config_no_error_cases :
    circInTriangle testSqrt testTri (some (-1)) none none 5
        = .ok (some [testTri.incircle])
    ∧ circInTriangle testSqrt testTri (some 1) none (some (1/2)) 5
        = .ok (some [testTri.incircle])
    ∧ circInTriangle testSqrt testTri none none none 5
        = .ok (some [testTri.incircle]) :=
  ⟨rfl, rfl, rfl⟩

/-- Claim C6 amended: `circInTriangle` raises a configuration error
exactly when `length` and the legacy alias `lenght` are both supplied
with non-equal values; supplying equal values for both behaves exactly
as supplying either alone.  All other configurations the claim lists as
invalid do not raise. -/
theorem circ_config_error_iff (sq : ℚ → ℚ) (t : Tri) (depth : Option ℤ)
    (lenght length : Option ℚ) (fuel : ℕ) :
    ((∃ e, circInTriangle sq t depth lenght length fuel = .error e)
       ↔ ∃ lv gv, length = some lv ∧ lenght = some gv ∧ lv ≠ gv)
    ∧ ∀ v : ℚ, circInTriangle sq t depth (some v) (some v) fuel
          = circInTriangle sq t depth none (some v) fuel
        ∧ circInTriangle sq t depth (some v) (some v) fuel
          = circInTriangle sq t depth (some v) none fuel := by
  constructor
  · cases length with
    | none => simp [circInTriangle, resolveLength]
    | some l =>
      cases lenght with
      | none => simp [circInTriangle, resolveLength]
      | some l0 =>
        by_cases h : l = l0
        · subst h
          simp [circInTriangle, resolveLength]
        · simp [circInTriangle, resolveLength, h, Ne.symm h]
  · intro v
    exact ⟨by simp [circInTriangle, resolveLength],
           by simp [circInTriangle, resolveLength]⟩

/-- Claim C7 (code bug): `Circle.descartesTheorem` applied to
non-tangent inputs raises no error at all: on the circles of radius 1
centered at `(0,0)` and `(10,0)` (centers at distance 10, sum of radii
2) it silently returns two circles, and the first returned circle is
not tangent to the first input (its center lies at squared distance
`625/16` from the input center instead of `(5/4)^2`). -/
theorem descartes_nontangent_silent :
    descartesTheorem testSqrt ⟨⟨0, 0⟩, 1⟩ ⟨⟨10, 0⟩, 1⟩ none
      = (⟨⟨5, 15/4⟩, 1/4⟩, ⟨⟨5, -15/4⟩, 1/4⟩)
    ∧ sqDist (descartesTheorem testSqrt ⟨⟨0, 0⟩, 1⟩ ⟨⟨10, 0⟩, 1⟩ none).1.center
          ⟨0, 0⟩
        ≠ ((1 : ℚ)
            + (descartesTheorem testSqrt ⟨⟨0, 0⟩, 1⟩ ⟨⟨10, 0⟩, 1⟩ none).1.radius) ^ 2 := by
  constructor
  · norm_num [descartesTheorem, descartesRadius, descartesChordDist,
      descartesHalfChordSq, Circle.curvature, testSqrt, Prod.ext_iff]
  · norm_num [descartesTheorem, descartesRadius, descartesChordDist,
      descartesHalfChordSq, Circle.curvature, testSqrt, sqDist]

/-- Claim C10: in length-bounded mode every iteration appends exactly
three circles (the placed circle and the two special-case Descartes
circles), so the returned list always has length `1 + 3*k`. -/
theorem circ_length_mode_count (sq : ℚ → ℚ) (t : Tri) (l : ℚ) (fuel : ℕ)
    (lst : List Circle)
    (h : circInTriangle sq t none (some l) none fuel = .ok (some lst)) :
    ∃ k, lst.length = 1 + 3 * k := by
  rw [circInTriangle, show resolveLength (some l) none = .ok (some l) from rfl]
    at h
  replace h := Except.ok.inj h
  rw [circInTriangleList] at h
  cases hA : vertexPack sq none (some l) fuel t.incircle t.A t.distA with
  | none => rw [hA] at h; exact absurd h (by simp)
  | some la =>
  cases hB : vertexPack sq none (some l) fuel t.incircle t.B t.distB with
  | none => rw [hA, hB] at h; exact absurd h (by simp)
  | some lb =>
  cases hC : vertexPack sq none (some l) fuel t.incircle t.C t.distC with
  | none => rw [hA, hB, hC] at h; exact absurd h (by simp)
  | some lc =>
    rw [hA, hB, hC] at h
    obtain rfl := (Option.some.inj h).symm
    rw [vertexPack] at hA hB hC
    obtain ⟨ka, hka⟩ := lengthLoop_length sq l t.A fuel _ _ _ hA
    obtain ⟨kb, hkb⟩ := lengthLoop_length sq l t.B fuel _ _ _ hB
    obtain ⟨kc, hkc⟩ := lengthLoop_length sq l t.C fuel _ _ _ hC
    refine ⟨ka + kb + kc, ?_⟩
    simp only [List.length_cons, List.length_append, hka, hkb, hkc]
    ring

/-- Witness for C10: a concrete length-bounded run that terminates and
returns one circle, a list of length `1 + 3*0`. -/
theorem circ_length_mode_count_witness :
    circInTriangle (fun _ => 0)
        (mkTriangle (fun _ => 0) ⟨0, 0⟩ ⟨3, 0⟩ ⟨0, 4⟩) none (some (1/2)) none 3
      = .ok (some [⟨⟨0, 0⟩, 0⟩])
    ∧ ∃ k, ([(⟨⟨0, 0⟩, 0⟩ : Circle)]).length = 1 + 3 * k := by
  have h : circInTriangle (fun _ => 0)
      (mkTriangle (fun _ => 0) ⟨0, 0⟩ ⟨3, 0⟩ ⟨0, 4⟩) none (some (1/2)) none 3
      = .ok (some [⟨⟨0, 0⟩, 0⟩]) := by
    norm_num [circInTriangle, resolveLength, circInTriangleList, vertexPack,
      lengthLoop, mkTriangle, euclid, sqDist]
  exact ⟨h, circ_length_mode_count (fun _ => 0)
    (mkTriangle (fun _ => 0) ⟨0, 0⟩ ⟨3, 0⟩ ⟨0, 4⟩) (1/2) 3 [⟨⟨0, 0⟩, 0⟩] h⟩

lemma bourke_points (d cd h R1 R2 dx dy : ℚ) (hd : d ≠ 0)
    (htan : dx ^ 2 + dy ^ 2 = d ^ 2)
    (hh : h ^ 2 = R1 ^ 2 - cd ^ 2)
    (hcd : cd * (2 * d) = R1 ^ 2 - R2 ^ 2 + d ^ 2) :
    (cd * (dx / d) - h * (dy / d)) ^ 2
        + (cd * (dy / d) + h * (dx / d)) ^ 2 = R1 ^ 2
    ∧ (cd * (dx / d) - h * (dy / d) - dx) ^ 2
        + (cd * (dy / d) + h * (dx / d) - dy) ^ 2 = R2 ^ 2
    ∧ (cd * (dx / d) + h * (dy / d)) ^ 2
        + (cd * (dy / d) - h * (dx / d)) ^ 2 = R1 ^ 2
    ∧ (cd * (dx / d) + h * (dy / d) - dx) ^ 2
        + (cd * (dy / d) - h * (dx / d) - dy) ^ 2 = R2 ^ 2 := by
  have aux1 : ∀ s : ℚ, s ^ 2 = R1 ^ 2 - cd ^ 2 →
      (cd * (dx / d) - s * (dy / d)) ^ 2
        + (cd * (dy / d) + s * (dx / d)) ^ 2 = R1 ^ 2 := by
    intro s hs
    field_simp
    linear_combination (cd ^ 2 + s ^ 2) * htan + d ^ 2 * hs
  have aux2 : ∀ s : ℚ, s ^ 2 = R1 ^ 2 - cd ^ 2 →
      (cd * (dx / d) - s * (dy / d) - dx) ^ 2
        + (cd * (dy / d) + s * (dx / d) - dy) ^ 2 = R2 ^ 2 := by
    intro s hs
    field_simp
    linear_combination ((cd - d) ^ 2 + s ^ 2) * htan + d ^ 2 * hs
      - d ^ 2 * hcd
  have hneg : (-h) ^ 2 = R1 ^ 2 - cd ^ 2 := by rw [neg_sq]; exact hh
  refine ⟨aux1 h hh, aux2 h hh, ?_, ?_⟩
  · linear_combination aux1 (-h) hneg
  · linear_combination aux2 (-h) hneg

/-- Claim C2: on two externally tangent circles of positive radius,
when the square root is exact on the half-chord argument, the
special case of `descartesTheorem` returns two circles of the common
radius `(c0 + c1 + 2*sqrt(c0*c1))⁻¹` (curvatures `c0`, `c1`), and each
returned circle is tangent to both inputs: the squared distance from
its center to each input center is the square of the sum of the
corresponding radii. -/
theorem descartes_special_case_tangent (sq : ℚ → ℚ) (c0 c1 : Circle)
    (h0 : 0 < c0.radius) (h1 : 0 < c1.radius)
    (htan : sqDist c1.center c0.center = (c0.radius + c1.radius) ^ 2)
    (hsq : sq (descartesHalfChordSq sq c0 c1 none) ^ 2
        = descartesHalfChordSq sq c0 c1 none) :
    (descartesTheorem sq c0 c1 none).1.radius
        = (c0.curvature + c1.curvature
            + 2 * sq (c0.curvature * c1.curvature))⁻¹
    ∧ (descartesTheorem sq c0 c1 none).2.radius
        = (descartesTheorem sq c0 c1 none).1.radius
    ∧ sqDist (descartesTheorem sq c0 c1 none).1.center c0.center
        = (c0.radius + (descartesTheorem sq c0 c1 none).1.radius) ^ 2
    ∧ sqDist (descartesTheorem sq c0 c1 none).1.center c1.center
        = (c1.radius + (descartesTheorem sq c0 c1 none).1.radius) ^ 2
    ∧ sqDist (descartesTheorem sq c0 c1 none).2.center c0.center
        = (c0.radius + (descartesTheorem sq c0 c1 none).2.radius) ^ 2
    ∧ sqDist (descartesTheorem sq c0 c1 none).2.center c1.center
        = (c1.radius + (descartesTheorem sq c0 c1 none).2.radius) ^ 2 := by
  have hd : c0.radius + c1.radius ≠ 0 := by positivity
  have h2d : 2 * (c0.radius + c1.radius) ≠ 0 := by positivity
  have hcd : descartesChordDist sq c0 c1 none * (2 * (c0.radius + c1.radius))
      = (c0.radius + descartesRadius sq c0 c1 none) ^ 2
        - (c1.radius + descartesRadius sq c0 c1 none) ^ 2
        + (c0.radius + c1.radius) ^ 2 := by
    show ((c0.radius + descartesRadius sq c0 c1 none) ^ 2
        - (c1.radius + descartesRadius sq c0 c1 none) ^ 2
        + (c0.radius + c1.radius) ^ 2) / (2 * (c0.radius + c1.radius))
        * (2 * (c0.radius + c1.radius)) = _
    exact div_mul_cancel₀ _ h2d
  have hh : sq (descartesHalfChordSq sq c0 c1 none) ^ 2
      = (c0.radius + descartesRadius sq c0 c1 none) ^ 2
        - descartesChordDist sq c0 c1 none ^ 2 := hsq
  have htan2 : (c1.center.x - c0.center.x) ^ 2
        + (c1.center.y - c0.center.y) ^ 2
      = (c0.radius + c1.radius) ^ 2 := htan
  have key := bourke_points (c0.radius + c1.radius)
      (descartesChordDist sq c0 c1 none)
      (sq (descartesHalfChordSq sq c0 c1 none))
      (c0.radius + descartesRadius sq c0 c1 none)
      (c1.radius + descartesRadius sq c0 c1 none)
      (c1.center.x - c0.center.x) (c1.center.y - c0.center.y)
      hd htan2 hh hcd
  refine ⟨rfl, rfl, ?_, ?_, ?_, ?_⟩
  · simp only [descartesTheorem, sqDist]
    linear_combination key.1
  · simp only [descartesTheorem, sqDist]
    linear_combination key.2.1
  · simp only [descartesTheorem, sqDist]
    linear_combination key.2.2.1
  · simp only [descartesTheorem, sqDist]
    linear_combination key.2.2.2

/-- Witness for C2: the unit circles centered at `(0,0)` and `(2,0)`
are externally tangent; the construction returns the two circles of
radius `1/4` centered at `(1, 3/4)` and `(1, -3/4)`, tangent to both. -/
theorem descartes_special_case_tangent_witness :
    ((0 : ℚ) < 1)
    ∧ sqDist (⟨2, 0⟩ : Pt) ⟨0, 0⟩ = ((1 : ℚ) + 1) ^ 2
    ∧ testSqrt (descartesHalfChordSq testSqrt ⟨⟨0, 0⟩, 1⟩ ⟨⟨2, 0⟩, 1⟩ none) ^ 2
        = descartesHalfChordSq testSqrt ⟨⟨0, 0⟩, 1⟩ ⟨⟨2, 0⟩, 1⟩ none
    ∧ ((descartesTheorem testSqrt ⟨⟨0, 0⟩, 1⟩ ⟨⟨2, 0⟩, 1⟩ none).1.radius
        = (Circle.curvature ⟨⟨0, 0⟩, 1⟩ + Circle.curvature ⟨⟨2, 0⟩, 1⟩
            + 2 * testSqrt (Circle.curvature ⟨⟨0, 0⟩, 1⟩
                * Circle.curvature ⟨⟨2, 0⟩, 1⟩))⁻¹
      ∧ (descartesTheorem testSqrt ⟨⟨0, 0⟩, 1⟩ ⟨⟨2, 0⟩, 1⟩ none).2.radius
        = (descartesTheorem testSqrt ⟨⟨0, 0⟩, 1⟩ ⟨⟨2, 0⟩, 1⟩ none).1.radius
      ∧ sqDist (descartesTheorem testSqrt ⟨⟨0, 0⟩, 1⟩ ⟨⟨2, 0⟩, 1⟩ none).1.center
            ⟨0, 0⟩
        = (1 + (descartesTheorem testSqrt ⟨⟨0, 0⟩, 1⟩ ⟨⟨2, 0⟩, 1⟩ none).1.radius) ^ 2
      ∧ sqDist (descartesTheorem testSqrt ⟨⟨0, 0⟩, 1⟩ ⟨⟨2, 0⟩, 1⟩ none).1.center
            ⟨2, 0⟩
        = (1 + (descartesTheorem testSqrt ⟨⟨0, 0⟩, 1⟩ ⟨⟨2, 0⟩, 1⟩ none).1.radius) ^ 2
      ∧ sqDist (descartesTheorem testSqrt ⟨⟨0, 0⟩, 1⟩ ⟨⟨2, 0⟩, 1⟩ none).2.center
            ⟨0, 0⟩
        = (1 + (descartesTheorem testSqrt ⟨⟨0, 0⟩, 1⟩ ⟨⟨2, 0⟩, 1⟩ none).2.radius) ^ 2
      ∧ sqDist (descartesTheorem testSqrt ⟨⟨0, 0⟩, 1⟩ ⟨⟨2, 0⟩, 1⟩ none).2.center
            ⟨2, 0⟩
        = (1 + (descartesTheorem testSqrt ⟨⟨0, 0⟩, 1⟩ ⟨⟨2, 0⟩, 1⟩ none).2.radius) ^ 2) :=
  ⟨by norm_num, by norm_num [sqDist],
   by norm_num [descartesHalfChordSq, descartesChordDist, descartesRadius,
     Circle.curvature, testSqrt],
   descartes_special_case_tangent testSqrt ⟨⟨0, 0⟩, 1⟩ ⟨⟨2, 0⟩, 1⟩
     (by norm_num) (by norm_num) (by norm_num [sqDist])
     (by norm_num [descartesHalfChordSq, descartesChordDist, descartesRadius,
       Circle.curvature, testSqrt])⟩

/-- Claim C3: in both stopping modes, one step of the per-vertex loop
with current circle of radius `R` centered at `O` and target vertex `V`
at working distance `D` places a circle of radius
`r = (R*D - R^2)/(R + D)` centered at `O + ((R+r)/D)*(V - O)`, and the
working distance for the next iteration is the Euclidean distance from
`V` to the new center (the length-bounded step taken under its
non-stopping condition). -/
theorem circ_step_formulas (sq : ℚ → ℚ) (vert : Pt) (aux : Circle)
    (D le : ℚ) (n : ℕ)
    (hstop : ¬ 2 * ((aux.radius * D - aux.radius ^ 2) / (aux.radius + D)) ≤ le) :
    ∃ r : ℚ, ∃ c : Circle,
      r = (aux.radius * D - aux.radius ^ 2) / (aux.radius + D)
      ∧ c = ⟨⟨aux.center.x + ((aux.radius + r) / D) * (vert.x - aux.center.x),
              aux.center.y + ((aux.radius + r) / D) * (vert.y - aux.center.y)⟩,
             r⟩
      ∧ depthLoop sq vert aux D (n + 1)
          = depthBlock sq aux c
              ++ depthLoop sq vert c (euclid sq vert c.center) n
      ∧ lengthLoop sq le vert aux D (n + 1)
          = (lengthLoop sq le vert c (euclid sq vert c.center) n).map
              (fun rest => c :: (descartesTheorem sq aux c none).1
                 :: (descartesTheorem sq aux c none).2 :: rest) := by
  refine ⟨_, _, rfl, rfl, ?_, ?_⟩
  · rw [depthLoop]
  · simp only [lengthLoop]
    rw [if_neg hstop]

/-- Witness for C3: a concrete non-stopping step with `R = 1`, `D = 3`,
stop length `1/4`, where the placed radius is `1/2`. -/
theorem circ_step_formulas_witness :
    (¬ 2 * (((1 : ℚ) * 3 - 1 ^ 2) / (1 + 3)) ≤ 1/4)
    ∧ ∃ r : ℚ, ∃ c : Circle,
        r = ((1 : ℚ) * 3 - 1 ^ 2) / (1 + 3)
        ∧ c = ⟨⟨0 + ((1 + r) / 3) * (3 - 0), 0 + ((1 + r) / 3) * (0 - 0)⟩, r⟩
        ∧ depthLoop (fun _ => 0) ⟨3, 0⟩ ⟨⟨0, 0⟩, 1⟩ 3 (0 + 1)
            = depthBlock (fun _ => 0) ⟨⟨0, 0⟩, 1⟩ c
                ++ depthLoop (fun _ => 0) ⟨3, 0⟩ c
                    (euclid (fun _ => 0) ⟨3, 0⟩ c.center) 0
        ∧ lengthLoop (fun _ => 0) (1/4) ⟨3, 0⟩ ⟨⟨0, 0⟩, 1⟩ 3 (0 + 1)
            = (lengthLoop (fun _ => 0) (1/4) ⟨3, 0⟩ c
                  (euclid (fun _ => 0) ⟨3, 0⟩ c.center) 0).map
                (fun rest => c
                   :: (descartesTheorem (fun _ => 0) ⟨⟨0, 0⟩, 1⟩ c none).1
                   :: (descartesTheorem (fun _ => 0) ⟨⟨0, 0⟩, 1⟩ c none).2
                   :: rest) :=
  ⟨by norm_num,
   circ_step_formulas (fun _ => 0) ⟨3, 0⟩ ⟨⟨0, 0⟩, 1⟩ 3 (1/4) 0 (by norm_num)⟩

/-- Claim C8: the method is idempotent.  If a call on instance state `s`
returns `out` and leaves the instance in state `s1` (only the `lstCirc`
cache changed), then the same call on `s1` returns the same `out` and
the same state: the caching side effect does not influence the result. -/
theorem circ_idempotent (sq : ℚ → ℚ) (s : TriM) (depth : Option ℤ)
    (lenght length : Option ℚ) (fuel : ℕ) (out : Option (List Circle))
    (s1 : TriM)
    (h : circInTriangleMethod sq s depth lenght length fuel false
        = .ok (some (out, s1))) :
    circInTriangleMethod sq s1 depth lenght length fuel false
      = .ok (some (out, s1)) := by
  cases hr : resolveLength lenght length with
  | error e => simp [circInTriangleMethod, hr] at h
  | ok l =>
    simp only [circInTriangleMethod, hr] at h ⊢
    cases hc : circInTriangleList sq s.tri depth l fuel with
    | none => rw [hc] at h; simp at h
    | some lst =>
      rw [hc] at h
      simp only [Bool.false_eq_true, if_false, Except.ok.injEq,
        Option.some.injEq, Prod.mk.injEq] at h
      obtain ⟨rfl, rfl⟩ := h
      simp [hc]

/-- Witness for C8: on the concrete test triangle with `depth = 0`, the
second call returns the same value and state as the first. -/
theorem circ_idempotent_witness :
    circInTriangleMethod testSqrt ⟨testTri, none⟩ (some 0) none none 5 false
        = .ok (some (some [testTri.incircle],
            ⟨testTri, some [testTri.incircle]⟩))
    ∧ circInTriangleMethod testSqrt ⟨testTri, some [testTri.incircle]⟩
          (some 0) none none 5 false
        = .ok (some (some [testTri.incircle],
            ⟨testTri, some [testTri.incircle]⟩)) :=
  ⟨rfl, circ_idempotent testSqrt ⟨testTri, none⟩ (some 0) none none 5
    (some [testTri.incircle]) ⟨testTri, some [testTri.incircle]⟩ rfl⟩

/-- Claim C9: with `want2plot=True` the method returns `None` instead of
the circle list; the list is available only through the cached `lstCirc`
attribute, which holds exactly what the `want2plot=False` call returns. -/
theorem circ_want2plot_none (sq : ℚ → ℚ) (s : TriM) (depth : Option ℤ)
    (lenght length : Option ℚ) (fuel : ℕ) (lst : List Circle) (s1 : TriM)
    (h : circInTriangleMethod sq s depth lenght length fuel false
        = .ok (some (some lst, s1))) :
    circInTriangleMethod sq s depth lenght length fuel true
        = .ok (some (none, s1))
      ∧ s1.lstCirc = some lst := by
  cases hr : resolveLength lenght length with
  | error e => simp [circInTriangleMethod, hr] at h
  | ok l =>
    simp only [circInTriangleMethod, hr] at h ⊢
    cases hc : circInTriangleList sq s.tri depth l fuel with
    | none => rw [hc] at h; simp at h
    | some lst0 =>
      rw [hc] at h
      simp only [Bool.false_eq_true, if_false, Except.ok.injEq,
        Option.some.injEq, Prod.mk.injEq] at h
      obtain ⟨rfl, rfl⟩ := h
      simp

/-- Witness for C9: on the concrete test triangle with `depth = 0`, the
plotting call returns `None` and caches the same one-element list the
non-plotting call returns. -/
theorem circ_want2plot_none_witness :
    circInTriangleMethod testSqrt ⟨testTri, none⟩ (some 0) none none 5 false
        = .ok (some (some [testTri.incircle],
            ⟨testTri, some [testTri.incircle]⟩))
    ∧ (circInTriangleMethod testSqrt ⟨testTri, none⟩ (some 0) none none 5 true
          = .ok (some (none, ⟨testTri, some [testTri.incircle]⟩))
        ∧ (⟨testTri, some [testTri.incircle]⟩ : TriM).lstCirc
          = some [testTri.incircle]) :=
  ⟨rfl, circ_want2plot_none testSqrt ⟨testTri, none⟩ (some 0) none none 5
    [testTri.incircle] ⟨testTri, some [testTri.incircle]⟩ rfl⟩

end Circpacker
